import Mathlib

/-
Verification of the Epic Changelog Agent repository.

The development shallowly embeds the two core components:
  * the narrative request construction and response decoration of
    `app/epic_log_generator.py` (`EpicChangelogAgent.generate_epic_changelog`), and
  * the theme registry of `app/theme_loader.py` (`ThemeLoader`).

Python strings are modelled as Lean `String` (with character-list helpers for
substring and whitespace reasoning), Python dicts of themes as insertion-ordered
association lists, the float temperature as a rational number, and the parse
outcome of a theme file as an inductive that distinguishes the exception
classes the loader catches from those that propagate; an uncaught exception
aborting a load is an `Option` failure of the loading functions.
-/

/-! ## Character-list helpers (substring test, Python-style strip) -/

/-- Boolean test that the first list is a prefix of the second. -/
def listPrefOf : List Char → List Char → Bool
  | [], _ => true
  | _ :: _, [] => false
  | a :: as, b :: bs => a == b && listPrefOf as bs

/-- Boolean test that `pat` occurs as a contiguous sublist of the second list
(the semantics of Python's `pat in s` on strings). -/
def listSub : List Char → List Char → Bool
  | pat, [] => pat.isEmpty
  | pat, c :: ls => listPrefOf pat (c :: ls) || listSub pat ls

/-- Substring containment on strings: `strContainsStr s pat` is Python's `pat in s`. -/
def strContainsStr (s pat : String) : Bool := listSub pat.data s.data

/-- Whitespace predicate used by Python's `str.strip()`: the code points for
which `str.isspace()` holds (ASCII whitespace, the C1 control block 1C-1F,
NEL 85, NBSP A0, Ogham space 1680, the 2000-200A spaces, the line and
paragraph separators 2028/2029, 202F, 205F and the ideographic space 3000). -/
def isWs (c : Char) : Bool :=
  c == ' ' || c == '\t' || c == '\n' || c == '\r' || c == '\x0b' || c == '\x0c' ||
  (0x1c ≤ c.val && c.val ≤ 0x1f) || c.val == 0x85 || c.val == 0xa0 ||
  c.val == 0x1680 || (0x2000 ≤ c.val && c.val ≤ 0x200a) ||
  c.val == 0x2028 || c.val == 0x2029 || c.val == 0x202f || c.val == 0x205f ||
  c.val == 0x3000

/-- Python's `s.strip()`: drop leading and trailing whitespace. -/
def trimChars (l : List Char) : List Char :=
  ((l.dropWhile isWs).reverse.dropWhile isWs).reverse

/-- Python's `s.lower()` (ASCII case mapping). -/
def strToLower (s : String) : String := ⟨s.data.map Char.toLower⟩

/-! ## Narrative request construction (`generate_epic_changelog`, lines 90-126) -/

/-- Theme names hard-coded in `EpicChangelogAgent.themes` (dict keys, lines 67-88). -/
def knownThemes : List String := ["medieval", "space", "superhero", "mythology"]

/-- Line 93-94: `if theme not in self.themes: theme = "medieval"`. -/
def normalizeTheme (theme : String) : String :=
  if knownThemes.contains theme then theme else "medieval"

/-- The system message content built at line 102 (an f-string mentioning only the
theme name). -/
def systemContent (theme : String) : String :=
  "You are a creative storyteller. Transform software changes into brief epic " ++
    theme ++
    " stories. Keep responses to 1-2 sentences with an emoji. Be direct and dramatic."

/-- The user message content built at line 103. -/
def userContent (text : String) : String :=
  "Transform: " ++ "'" ++ text ++ "'"

/-- The JSON payload assembled at lines 112-119 of `generate_epic_changelog`. -/
structure Payload where
  model : String
  provider : String
  messages : List (String × String)
  maxTokens : Nat
  temperature : ℚ
  stop : List String
deriving DecidableEq

/-- Lines 101-119: the generation request built from the (already normalized)
theme, the input text and the drama level. The drama level is received by
`generate_epic_changelog` but never read: `max_tokens` is the literal 150 and
`temperature` the literal 0.8. -/
def buildPayload (model theme text : String) (dramaLevel : Nat) : Payload :=
  { model := model
    provider := "fireworks-ai"
    messages := [("system", systemContent theme), ("user", userContent text)]
    maxTokens := 150
    temperature := 0.8
    stop := ["<think>"] }

/-- Lines 90-119 end to end: normalize the theme name, then build the payload. -/
def epicRequest (model theme text : String) (dramaLevel : Nat) : Payload :=
  buildPayload model (normalizeTheme theme) text dramaLevel

/-! ## Response post-processing (`generate_epic_changelog`, lines 128-150) -/

/-- Python's `s.split(sep)[-1]` for a fixed separator that cannot overlap
itself (such as `</think>`): the suffix after the last occurrence of `pat`, or
the whole list when `pat` does not occur. Scanning for the rightmost occurrence
start is equivalent to Python's left-to-right non-overlapping split because
`</think>` has no non-trivial border. -/
def afterLastOcc (pat : List Char) : List Char → List Char
  | [] => []
  | c :: rest =>
    if listSub pat rest then afterLastOcc pat rest
    else if listPrefOf pat (c :: rest) then (c :: rest).drop pat.length
    else c :: rest

/-- Scanner for `removeAllOcc`, structurally recursive on a fuel that bounds
the number of scan steps: every step consumes at least one character when the
pattern is non-empty, so `l.length` fuel always completes the scan; for the
empty pattern, Python's `replace("", "")` is the identity, which exhausting
the fuel also returns. -/
def removeAllOccAux (pat : List Char) : Nat → List Char → List Char
  | 0, l => l
  | _ + 1, [] => []
  | fuel + 1, c :: rest =>
    if listPrefOf pat (c :: rest) then
      removeAllOccAux pat fuel ((c :: rest).drop pat.length)
    else c :: removeAllOccAux pat fuel rest

/-- Python's `s.replace(pat, "")`: delete the left-to-right non-overlapping
occurrences of `pat`. -/
def removeAllOcc (pat l : List Char) : List Char := removeAllOccAux pat l.length l

/-- Lines 130-137: the whitespace strip of the raw model output (line 130),
the trailing-text extraction after a leading `<think>` block (lines 133-134,
`content.split('</think>')[-1].strip()`), and the removal of any remaining
`<think>` / `</think>` markers (line 137). -/
def cleanResponse (raw : List Char) : List Char :=
  removeAllOcc "</think>".data
    (removeAllOcc "<think>".data
      (if listPrefOf "<think>".data (trimChars raw) then
        trimChars (afterLastOcc "</think>".data (trimChars raw))
      else trimChars raw))

/-- The fixed decorative-symbol set checked at line 141. -/
def decorations : List (List Char) :=
  ["⚔️".data, "🏰".data, "🐉".data, "🚀".data, "💥".data, "⚡".data, "🎭".data]

/-- Line 141: `any(emoji in content for emoji in [...])`. -/
def hasDecoration (l : List Char) : Bool :=
  decorations.any fun d => listSub d l

/-- Lines 142-148: `emoji_map.get(theme, '🎭')`. -/
def emojiMap (theme : String) : String :=
  if theme == "medieval" then "⚔️"
  else if theme == "space" then "🚀"
  else if theme == "superhero" then "💥"
  else if theme == "mythology" then "⚡"
  else "🎭"

/-- The emoji fallback of lines 141-148, applied to the already-cleaned
content: if it contains no decorative symbol it is prefixed with the theme
emoji and a space (`f"{emoji_map.get(theme, '🎭')} {content}"`). -/
def decorateContent (theme : String) (content : List Char) : List Char :=
  if hasDecoration content then content else (emojiMap theme).data ++ ' ' :: content

/-- Lines 128-150 of the success path: strip and de-`<think>` the raw output
(lines 130-137), then apply the emoji fallback (lines 141-148). -/
def postprocessResponse (theme : String) (raw : List Char) : List Char :=
  decorateContent theme (cleanResponse raw)

/-- The post-processing as applied inside `generate_epic_changelog`, where the
theme variable has already been normalized at lines 93-94. -/
def epicDecorate (theme : String) (raw : List Char) : List Char :=
  postprocessResponse (normalizeTheme theme) raw

/-! ## Spec-side request parameters (for the refinement comparison of C1) -/

/-- Modelled from the spec: `max_output_tokens = min(200, 100 + 10 × level)`. -/
def specMaxTokens (level : Nat) : Nat := min 200 (100 + 10 * level)

/-- Modelled from the spec: `temperature = min(1.0, 0.5 + 0.05 × level)`. -/
def specTemperature (level : Nat) : ℚ := min 1 (1/2 + (1/20) * level)

/-! ## Theme registry (`app/theme_loader.py`) -/

/-- The parsed content of a theme JSON file (`theme_data` in the loader).
Optional fields model the presence or absence of the corresponding JSON key. -/
structure ThemeData where
  name : Option String
  displayName : Option String
  description : Option String
  emoji : Option String
  vocabulary : Option (List String)
  metaphors : Option (List String)
  tone : Option String
deriving DecidableEq

/-- The outcome of opening and `json.load`-ing a theme file, classified by the
exception behaviour of the Python code that consumes it:
* `record td` — the file parses to a JSON object;
* `caughtError` — `open`/`json.load` raises one of the exception classes the
  loader's per-file handler lists (`json.JSONDecodeError`, `FileNotFoundError`);
* `nonRecord` — the file is well-formed JSON whose top level is not an object
  (such as `42`), so `_validate_theme`'s `field in theme_data` raises an
  uncaught `TypeError`;
* `uncaughtError` — reading raises an exception outside the handled classes
  (such as `UnicodeDecodeError` on a non-UTF-8 file). -/
inductive FileParse where
  | record : ThemeData → FileParse
  | caughtError : FileParse
  | nonRecord : FileParse
  | uncaughtError : FileParse
deriving DecidableEq

/-- A theme file on disk: its stem (base name without extension), its full
path, and its parse outcome. -/
structure ThemeFile where
  stem : String
  path : String
  content : FileParse
deriving DecidableEq

/-- A value stored in `self.themes`: the parsed data plus the `_source` and
`_file_path` keys injected at lines 72-73 (absent when the theme was added by
`add_custom_theme`, which stores the raw data). -/
structure StoredTheme where
  data : ThemeData
  source : Option String
  filePath : Option String
deriving DecidableEq

/-- `ThemeLoader._validate_theme` (lines 85-88): all of `vocabulary`,
`metaphors`, `tone` are present. Nothing else is inspected. -/
def validateTheme (td : ThemeData) : Bool :=
  td.vocabulary.isSome && td.metaphors.isSome && td.tone.isSome

/-- Python's `stem.replace("_theme", "")`: remove every occurrence of the
six-character pattern `_theme` from a character list, left to right. -/
def removeThemeOcc (l : List Char) : List Char :=
  match l with
  | [] => []
  | c :: rest =>
    if listPrefOf "_theme".data (c :: rest) then removeThemeOcc ((c :: rest).drop 6)
    else c :: removeThemeOcc rest
termination_by l.length
decreasing_by
  · simp only [List.length_drop, List.length_cons]
    omega
  · simp

/-- Line 69: the registry key, `theme_data.get("name", theme_file.stem.replace("_theme", ""))`. -/
def themeKey (f : ThemeFile) (td : ThemeData) : String :=
  td.name.getD ⟨removeThemeOcc f.stem.data⟩

/-- The in-memory registry `self.themes`, as an insertion-ordered association
list (the model of a Python dict). -/
abbrev Registry : Type := List (String × StoredTheme)

/-- Python dict assignment `self.themes[key] = v`: replace the value at an
existing key in place, otherwise append at the end. -/
def insertTheme (reg : Registry) (k : String) (v : StoredTheme) : Registry :=
  if (List.any reg fun p => p.1 == k) then
    List.map (fun p => if p.1 == k then (k, v) else p) reg
  else reg ++ [(k, v)]

/-- Python dict lookup `self.themes.get(k)`. -/
def lookupReg (reg : Registry) (k : String) : Option StoredTheme :=
  Option.map Prod.snd (List.find? (fun p => p.1 == k) reg)

/-- One iteration of the file loop of `_load_themes_from_directory`
(lines 62-81): a caught parse failure or an invalid structure contributes
nothing; a parsed record is stored under its key with `_source` and
`_file_path` set, counting one loaded theme; a failure outside the handler's
exception classes propagates (`none`), aborting the surrounding loop. -/
def loadFile (reg : Registry) (themeType : String) (f : ThemeFile) :
    Option (Registry × Nat) :=
  match f.content with
  | FileParse.record td =>
    if validateTheme td then
      some (insertTheme reg (themeKey f td) ⟨td, some (strToLower themeType), some f.path⟩, 1)
    else some (reg, 0)
  | FileParse.caughtError => some (reg, 0)
  | FileParse.nonRecord => none
  | FileParse.uncaughtError => none

/-- `ThemeLoader._load_themes_from_directory` (lines 53-83) over the directory's
file list, returning the updated registry and the number of themes loaded, or
`none` when a file raises an exception the per-file handler does not catch. -/
def loadThemesFromDirectory (reg : Registry) (themeType : String) :
    List ThemeFile → Option (Registry × Nat)
  | [] => some (reg, 0)
  | f :: fs =>
    (loadFile reg themeType f).bind fun step =>
      (loadThemesFromDirectory step.1 themeType fs).map fun rest =>
        (rest.1, step.2 + rest.2)

/-- `ThemeLoader.load_themes` (lines 28-51): load the default directory first
(`theme_type = "Default"`), then the custom directory (`theme_type = "Custom"`),
into one registry. A missing directory contributes an empty file list; an
uncaught per-file exception propagates out of `load_themes` (`none`). -/
def loadThemes (defaultFiles customFiles : List ThemeFile) : Option Registry :=
  (loadThemesFromDirectory [] "Default" defaultFiles).bind fun afterDefault =>
    (loadThemesFromDirectory afterDefault.1 "Custom" customFiles).map fun afterCustom =>
      afterCustom.1

/-- `ThemeLoader.get_theme` (lines 90-92): lowercase the query, then look it up. -/
def getTheme (reg : Registry) (themeName : String) : Option StoredTheme :=
  lookupReg reg (strToLower themeName)

/-- The loader state visible to `add_custom_theme`: the registry and the file
names present in the `Custom_Themes` directory. -/
structure LoaderState where
  themes : Registry
  customDirFiles : List String
deriving DecidableEq

/-- `ThemeLoader.add_custom_theme` (lines 130-168): its blanket
`except Exception` turns every parse-time exception (caught or not by the
loader's loop) into `False` with no state change; validation failure is
reported as `False` with no state change; on success the raw data is stored in
memory and, when `permanent`, the file is copied into `Custom_Themes` under
`f"{theme_name}_theme.json"`. -/
def addCustomTheme (st : LoaderState) (f : ThemeFile) (permanent : Bool) :
    Bool × LoaderState :=
  match f.content with
  | FileParse.record td =>
    if validateTheme td then
      let k := themeKey f td
      let themes := insertTheme st.themes k ⟨td, none, none⟩
      let files :=
        if permanent then st.customDirFiles ++ [k ++ "_theme.json"]
        else st.customDirFiles
      (true, ⟨themes, files⟩)
    else (false, st)
  | FileParse.caughtError => (false, st)
  | FileParse.nonRecord => (false, st)
  | FileParse.uncaughtError => (false, st)

/-- A theme file that does not yield a valid record: its parse raises some
exception, it parses to a non-object, or the parsed record is missing a
required field. `add_custom_theme` reports all of these as failures. -/
def badThemeFile (f : ThemeFile) : Prop :=
  (∀ td, f.content ≠ FileParse.record td) ∨
    ∃ td, f.content = FileParse.record td ∧ validateTheme td = false

/-- A theme file the loading loop skips while continuing: a parse failure of
one of the caught exception classes, or a record missing a required field
(the two skip branches of `_load_themes_from_directory`, lines 77-81). -/
def skippedThemeFile (f : ThemeFile) : Prop :=
  f.content = FileParse.caughtError ∨
    ∃ td, f.content = FileParse.record td ∧ validateTheme td = false

/-- A theme file whose processing raises an exception the loading loop's
handler does not list, aborting the whole load. -/
def abortingThemeFile (f : ThemeFile) : Prop :=
  f.content = FileParse.nonRecord ∨ f.content = FileParse.uncaughtError

/-! ## Helper lemmas: substring containment -/

theorem listPrefOf_self_append : ∀ (l r : List Char), listPrefOf l (l ++ r) = true
  | [], _ => rfl
  | a :: as, r => by simp [listPrefOf, listPrefOf_self_append as r]

theorem listSub_of_pref : ∀ {pat l : List Char}, listPrefOf pat l = true → listSub pat l = true := by
  intro pat l h
  cases l with
  | nil =>
    cases pat with
    | nil => rfl
    | cons a as => simp [listPrefOf] at h
  | cons c ls => simp [listSub, h]

theorem listSub_cons {pat l : List Char} (c : Char) (h : listSub pat l = true) :
    listSub pat (c :: l) = true := by
  simp [listSub, h]

theorem listSub_append_left {pat l : List Char} (x : List Char) (h : listSub pat l = true) :
    listSub pat (x ++ l) = true := by
  induction x with
  | nil => simpa using h
  | cons a as ih => simpa using listSub_cons a ih

theorem listSub_self_append (pat r : List Char) : listSub pat (pat ++ r) = true :=
  listSub_of_pref (listPrefOf_self_append pat r)

/-! ## Helper lemmas: whitespace trimming -/

theorem dropWhile_head_false {p : Char → Bool} :
    ∀ {l : List Char} {c : Char} {t : List Char}, l.dropWhile p = c :: t → p c = false := by
  intro l
  induction l with
  | nil => intro c t h; simp [List.dropWhile] at h
  | cons a as ih =>
    intro c t h
    rw [List.dropWhile_cons] at h
    by_cases ha : p a = true
    · rw [if_pos ha] at h; exact ih h
    · rw [if_neg ha] at h
      cases h
      simpa using ha

theorem dropWhile_eq_self_of_head {p : Char → Bool} {l : List Char}
    (h : ∀ c ∈ l.head?, p c = false) : l.dropWhile p = l := by
  cases l with
  | nil => rfl
  | cons a as =>
    rw [List.dropWhile_cons, if_neg]
    simp [h a (by simp)]

theorem dropWhile_getLast?_or (p : Char → Bool) :
    ∀ l : List Char, l.dropWhile p = [] ∨ (l.dropWhile p).getLast? = l.getLast? := by
  intro l
  induction l with
  | nil => exact Or.inl rfl
  | cons a as ih =>
    rw [List.dropWhile_cons]
    by_cases ha : p a = true
    · rw [if_pos ha]
      by_cases hd : as.dropWhile p = []
      · exact Or.inl hd
      · right
        rcases ih with h | h
        · exact absurd h hd
        · rw [h]
          cases as with
          | nil => simp [List.dropWhile] at hd
          | cons b bs => rw [List.getLast?_cons_cons]
    · rw [if_neg ha]
      exact Or.inr rfl

theorem trim_reverse (l : List Char) :
    (trimChars l).reverse = (l.dropWhile isWs).reverse.dropWhile isWs := by
  simp [trimChars]

theorem trim_head_nonws {l : List Char} {c : Char} {t : List Char}
    (h : trimChars l = c :: t) : isWs c = false := by
  have h2 : ((l.dropWhile isWs).reverse.dropWhile isWs).reverse = c :: t := h
  have hgl : ((l.dropWhile isWs).reverse.dropWhile isWs).getLast? = some c := by
    rw [← List.head?_reverse, h2]; rfl
  rcases dropWhile_getLast?_or isWs (l.dropWhile isWs).reverse with h0 | h0
  · rw [h0] at hgl; simp at hgl
  · rw [h0, List.getLast?_reverse] at hgl
    cases hX : l.dropWhile isWs with
    | nil => rw [hX] at hgl; simp at hgl
    | cons d ds =>
      rw [hX] at hgl
      simp only [List.head?_cons, Option.some.injEq] at hgl
      exact hgl ▸ dropWhile_head_false hX

theorem trim_last_nonws {l : List Char} {c : Char} {t : List Char}
    (h : (trimChars l).reverse = c :: t) : isWs c = false := by
  rw [trim_reverse] at h
  exact dropWhile_head_false h

theorem trim_fixed {l : List Char} (h1 : ∀ c ∈ l.head?, isWs c = false)
    (h2 : ∀ c ∈ l.reverse.head?, isWs c = false) : trimChars l = l := by
  rw [trimChars, dropWhile_eq_self_of_head h1, dropWhile_eq_self_of_head h2,
    List.reverse_reverse]

theorem trim_trim (l : List Char) : trimChars (trimChars l) = trimChars l := by
  apply trim_fixed
  · intro c hc
    cases ht : trimChars l with
    | nil => rw [ht] at hc; simp at hc
    | cons d ds =>
      rw [ht] at hc
      simp only [List.head?_cons, Option.mem_def, Option.some.injEq] at hc
      exact hc ▸ trim_head_nonws ht
  · intro c hc
    cases ht : (trimChars l).reverse with
    | nil => rw [ht] at hc; simp at hc
    | cons d ds =>
      rw [ht] at hc
      simp only [List.head?_cons, Option.mem_def, Option.some.injEq] at hc
      exact hc ▸ trim_last_nonws ht

/-! ## Helper lemmas: emoji decoration -/

theorem emojiMap_spec (theme : String) :
    (emojiMap theme).data ∈ decorations ∧ (emojiMap theme).data ≠ [] ∧
      (∀ c ∈ (emojiMap theme).data, isWs c = false) ∧
      '<' ∉ (emojiMap theme).data := by
  unfold emojiMap
  split
  · exact ⟨by decide, by decide, by decide, by decide⟩
  · split
    · exact ⟨by decide, by decide, by decide, by decide⟩
    · split
      · exact ⟨by decide, by decide, by decide, by decide⟩
      · split
        · exact ⟨by decide, by decide, by decide, by decide⟩
        · exact ⟨by decide, by decide, by decide, by decide⟩

theorem hasDecoration_of_sub {d l : List Char} (hd : d ∈ decorations)
    (hs : listSub d l = true) : hasDecoration l = true := by
  unfold hasDecoration
  rw [List.any_eq_true]
  exact ⟨d, hd, hs⟩

theorem trim_append_space {e : List Char} (he : e ≠ [])
    (hnws : ∀ c ∈ e, isWs c = false) : trimChars (e ++ [' ']) = e := by
  obtain ⟨d, es, rfl⟩ : ∃ d es, e = d :: es := by
    cases e with
    | nil => exact absurd rfl he
    | cons d es => exact ⟨d, es, rfl⟩
  have h1 : List.dropWhile isWs ((d :: es) ++ [' ']) = (d :: es) ++ [' '] := by
    apply dropWhile_eq_self_of_head
    intro c hc
    simp only [List.cons_append, List.head?_cons, Option.mem_def, Option.some.injEq] at hc
    exact hc ▸ hnws d (by simp)
  have h2 : ((d :: es) ++ [' ']).reverse = ' ' :: (d :: es).reverse := by simp
  have h3 : List.dropWhile isWs (d :: es).reverse = (d :: es).reverse := by
    apply dropWhile_eq_self_of_head
    intro c hc
    exact hnws c (List.mem_reverse.1 (List.mem_of_mem_head? hc))
  unfold trimChars
  rw [h1, h2, List.dropWhile_cons, if_pos (by decide), h3, List.reverse_reverse]

theorem trim_append_space_trim {e : List Char} (he : e ≠ [])
    (hnws : ∀ c ∈ e, isWs c = false) (content : List Char) {c : Char} {t : List Char}
    (ht : trimChars content = c :: t) :
    trimChars (e ++ ' ' :: trimChars content) = e ++ ' ' :: trimChars content := by
  obtain ⟨d, es, rfl⟩ : ∃ d es, e = d :: es := by
    cases e with
    | nil => exact absurd rfl he
    | cons d es => exact ⟨d, es, rfl⟩
  apply trim_fixed
  · intro x hx
    simp only [List.cons_append, List.head?_cons, Option.mem_def, Option.some.injEq] at hx
    exact hx ▸ hnws d (by simp)
  · intro x hx
    rcases hrt : (trimChars content).reverse with _ | ⟨b, bs⟩
    · rw [ht] at hrt; simp at hrt
    · have hb : isWs b = false := trim_last_nonws hrt
      have hshape : ((d :: es) ++ ' ' :: trimChars content).reverse =
          b :: (bs ++ ' ' :: (d :: es).reverse) := by
        rw [List.reverse_append]
        simp [hrt]
      rw [hshape] at hx
      simp only [List.head?_cons, Option.mem_def, Option.some.injEq] at hx
      exact hx ▸ hb

/-! ## Helper lemmas: think-tag cleanup -/

theorem listPrefOf_false_of_sub_false {pat l : List Char} (h : listSub pat l = false) :
    listPrefOf pat l = false := by
  cases hp : listPrefOf pat l
  · rfl
  · rw [listSub_of_pref hp] at h
    exact absurd h (by simp)

theorem listSub_prepend_notin {p0 : Char} {ps : List Char} :
    ∀ (pre t : List Char), (∀ c ∈ pre, c ≠ p0) →
      listSub (p0 :: ps) (pre ++ t) = listSub (p0 :: ps) t := by
  intro pre
  induction pre with
  | nil => intro t _; rfl
  | cons c rest ih =>
    intro t hpre
    have hc : (p0 == c) = false := by
      have := hpre c (by simp)
      simp [beq_eq_false_iff_ne, this.symm]
    show (listPrefOf (p0 :: ps) (c :: (rest ++ t)) || listSub (p0 :: ps) (rest ++ t)) = _
    rw [ih t fun d hd => hpre d (by simp [hd]), listPrefOf, hc]
    simp

theorem removeAllOccAux_no_occ : ∀ (fuel : Nat) (pat l : List Char),
    listSub pat l = false → removeAllOccAux pat fuel l = l := by
  intro fuel
  induction fuel with
  | zero => intro pat l _; rfl
  | succ n ih =>
    intro pat l h
    cases l with
    | nil => rfl
    | cons c rest =>
      have hsub : listSub pat rest = false := by
        cases hs : listSub pat rest
        · rfl
        · rw [show listSub pat (c :: rest) =
              (listPrefOf pat (c :: rest) || listSub pat rest) from rfl,
            hs] at h
          simpa using h
      show (if listPrefOf pat (c :: rest) then
          removeAllOccAux pat n ((c :: rest).drop pat.length)
        else c :: removeAllOccAux pat n rest) = c :: rest
      rw [if_neg (by simp [listPrefOf_false_of_sub_false h]), ih pat rest hsub]

theorem removeAllOcc_no_occ {pat l : List Char} (h : listSub pat l = false) :
    removeAllOcc pat l = l :=
  removeAllOccAux_no_occ l.length pat l h

theorem cleanResponse_no_tags (raw : List Char)
    (h1 : listSub "<think>".data (trimChars raw) = false)
    (h2 : listSub "</think>".data (trimChars raw) = false) :
    cleanResponse raw = trimChars raw := by
  unfold cleanResponse
  rw [if_neg (by simp [listPrefOf_false_of_sub_false h1]),
    removeAllOcc_no_occ h1, removeAllOcc_no_occ h2]

/-! ## Helper lemmas: registry operations -/

theorem find_map_self {reg : Registry} {k : String} (v : StoredTheme)
    (h : (List.any reg fun p => p.1 == k) = true) :
    List.find? (fun p => p.1 == k) (List.map (fun p => if p.1 == k then (k, v) else p) reg) =
      some (k, v) := by
  induction reg with
  | nil => simp at h
  | cons p rest ih =>
    rw [List.map_cons]
    by_cases hp : (p.1 == k) = true
    · rw [if_pos hp]
      exact List.find?_cons_of_pos _ (by simp)
    · rw [if_neg hp, List.find?_cons_of_neg _ (by simpa using hp)]
      apply ih
      rcases List.any_eq_true.1 h with ⟨q, hq, hqk⟩
      rcases List.mem_cons.1 hq with rfl | hq
      · exact absurd hqk hp
      · exact List.any_eq_true.2 ⟨q, hq, hqk⟩

theorem find_append_self {reg : Registry} {k : String} (v : StoredTheme)
    (h : (List.any reg fun p => p.1 == k) = false) :
    List.find? (fun p => p.1 == k) (reg ++ [(k, v)]) = some (k, v) := by
  induction reg with
  | nil => exact List.find?_cons_of_pos _ (by simp)
  | cons p rest ih =>
    rw [List.any_cons, Bool.or_eq_false_iff] at h
    rw [List.cons_append, List.find?_cons_of_neg _ (by simp [h.1])]
    exact ih h.2

theorem lookup_insert (reg : Registry) (k : String) (v : StoredTheme) :
    lookupReg (insertTheme reg k v) k = some v := by
  unfold insertTheme lookupReg
  by_cases h : (List.any reg fun p => p.1 == k) = true
  · rw [if_pos h, find_map_self v h]
    rfl
  · rw [Bool.not_eq_true] at h
    rw [if_neg (by simp [h]), find_append_self v h]
    rfl

theorem mem_insertTheme {reg : Registry} {k : String} {v : StoredTheme} {p : String × StoredTheme}
    (h : p ∈ insertTheme reg k v) : p = (k, v) ∨ p ∈ reg := by
  unfold insertTheme at h
  split at h
  · rcases List.mem_map.1 h with ⟨q, hq, hfq⟩
    by_cases hqk : (q.1 == k) = true
    · left; rw [← hfq, if_pos hqk]
    · right; rw [← hfq, if_neg hqk]; exact hq
  · rcases List.mem_append.1 h with h | h
    · exact Or.inr h
    · left; simpa using h

theorem lookup_mem {reg : Registry} {k : String} {v : StoredTheme}
    (h : lookupReg reg k = some v) : ∃ q ∈ reg, q.2 = v := by
  unfold lookupReg at h
  cases hf : List.find? (fun p => p.1 == k) reg with
  | none => rw [hf] at h; simp at h
  | some q =>
    rw [hf] at h
    exact ⟨q, List.mem_of_find?_eq_some hf, by simpa using h⟩

theorem lookup_none {reg : Registry} {k : String}
    (h : ∀ p ∈ reg, (p.1 == k) = false) : lookupReg reg k = none := by
  unfold lookupReg
  rw [List.find?_eq_none.2 (by simpa using h)]
  rfl

theorem find_map_ne {reg : Registry} {kIns k : String} (v : StoredTheme)
    (hne : (kIns == k) = false) :
    List.find? (fun p => p.1 == k)
        (List.map (fun p => if p.1 == kIns then (kIns, v) else p) reg) =
      List.find? (fun p => p.1 == k) reg := by
  induction reg with
  | nil => rfl
  | cons p rest ih =>
    rw [List.map_cons]
    by_cases hp : (p.1 == kIns) = true
    · have hpk : (p.1 == k) = false := by
        have he : p.1 = kIns := by simpa using hp
        rw [he]
        exact hne
      rw [if_pos hp]
      simp only [List.find?_cons]
      rw [hne, hpk, ih]
    · rw [if_neg hp]
      simp only [List.find?_cons]
      by_cases hpk : (p.1 == k) = true
      · rw [hpk]
      · rw [Bool.not_eq_true] at hpk
        rw [hpk, ih]

theorem find_append_singleton_ne {kIns k : String} (v : StoredTheme)
    (hne : (kIns == k) = false) (reg : Registry) :
    List.find? (fun p => p.1 == k) (reg ++ [(kIns, v)]) =
      List.find? (fun p => p.1 == k) reg := by
  induction reg with
  | nil =>
    rw [List.nil_append]
    simp only [List.find?_cons]
    rw [hne]
  | cons p rest ih =>
    rw [List.cons_append]
    simp only [List.find?_cons]
    by_cases hp : (p.1 == k) = true
    · rw [hp]
    · rw [Bool.not_eq_true] at hp
      rw [hp, ih]

theorem lookup_insert_ne (reg : Registry) {kIns k : String} (v : StoredTheme)
    (hne : (kIns == k) = false) :
    lookupReg (insertTheme reg kIns v) k = lookupReg reg k := by
  unfold insertTheme lookupReg
  by_cases h : (List.any reg fun p => p.1 == kIns) = true
  · rw [if_pos h, find_map_ne v hne]
  · rw [if_neg h, find_append_singleton_ne v hne]

/-! ## Helper lemmas: the theme-loading loop -/

theorem loadFile_record {f : ThemeFile} {td : ThemeData}
    (h : f.content = FileParse.record td) (reg : Registry) (themeType : String) :
    loadFile reg themeType f =
      if validateTheme td then
        some (insertTheme reg (themeKey f td)
          ⟨td, some (strToLower themeType), some f.path⟩, 1)
      else some (reg, 0) := by
  unfold loadFile
  rw [h]

theorem loadFile_caught {f : ThemeFile} (h : f.content = FileParse.caughtError)
    (reg : Registry) (themeType : String) : loadFile reg themeType f = some (reg, 0) := by
  unfold loadFile
  rw [h]

theorem loadFile_skip {f : ThemeFile} (h : skippedThemeFile f) (reg : Registry)
    (themeType : String) : loadFile reg themeType f = some (reg, 0) := by
  rcases h with h | ⟨td, hc, hv⟩
  · exact loadFile_caught h reg themeType
  · rw [loadFile_record hc reg themeType, if_neg (by simp [hv])]

theorem loadFile_abort {f : ThemeFile} (h : abortingThemeFile f) (reg : Registry)
    (themeType : String) : loadFile reg themeType f = none := by
  rcases h with h | h <;> (unfold loadFile; rw [h])

theorem loadDir_nil (reg : Registry) (themeType : String) :
    loadThemesFromDirectory reg themeType [] = some (reg, 0) := rfl

theorem loadDir_cons (reg : Registry) (themeType : String) (f : ThemeFile)
    (fs : List ThemeFile) :
    loadThemesFromDirectory reg themeType (f :: fs) =
      (loadFile reg themeType f).bind fun step =>
        (loadThemesFromDirectory step.1 themeType fs).map fun rest =>
          (rest.1, step.2 + rest.2) := rfl

theorem loadDir_skip_bad {f : ThemeFile} (h : skippedThemeFile f) (themeType : String) :
    ∀ (xs : List ThemeFile) (reg : Registry) (ys : List ThemeFile),
      loadThemesFromDirectory reg themeType (xs ++ f :: ys) =
        loadThemesFromDirectory reg themeType (xs ++ ys) := by
  intro xs
  induction xs with
  | nil =>
    intro reg ys
    rw [List.nil_append, List.nil_append, loadDir_cons, loadFile_skip h]
    cases hd : loadThemesFromDirectory reg themeType ys <;> simp [hd]
  | cons x xs ih =>
    intro reg ys
    rw [List.cons_append, List.cons_append, loadDir_cons, loadDir_cons]
    cases hx : loadFile reg themeType x with
    | none => rfl
    | some step => simp [ih]

theorem loadDir_abort {f : ThemeFile} (h : abortingThemeFile f) (themeType : String) :
    ∀ (xs : List ThemeFile) (reg : Registry) (ys : List ThemeFile),
      loadThemesFromDirectory reg themeType (xs ++ f :: ys) = none := by
  intro xs
  induction xs with
  | nil =>
    intro reg ys
    rw [List.nil_append, loadDir_cons, loadFile_abort h]
    rfl
  | cons x xs ih =>
    intro reg ys
    rw [List.cons_append, loadDir_cons]
    cases hx : loadFile reg themeType x with
    | none => rfl
    | some step => simp [ih]

theorem loadDir_append (themeType : String) :
    ∀ (xs ys : List ThemeFile) (reg : Registry),
      loadThemesFromDirectory reg themeType (xs ++ ys) =
        (loadThemesFromDirectory reg themeType xs).bind fun step =>
          (loadThemesFromDirectory step.1 themeType ys).map fun rest =>
            (rest.1, step.2 + rest.2) := by
  intro xs
  induction xs with
  | nil =>
    intro ys reg
    rw [List.nil_append, loadDir_nil]
    cases hd : loadThemesFromDirectory reg themeType ys <;> simp [hd]
  | cons x xs ih =>
    intro ys reg
    rw [List.cons_append, loadDir_cons, loadDir_cons]
    cases hx : loadFile reg themeType x with
    | none => rfl
    | some step =>
      simp only [Option.some_bind]
      rw [ih]
      cases hmid : loadThemesFromDirectory step.1 themeType xs with
      | none => rfl
      | some mid =>
        simp only [Option.some_bind, Option.map_some', Option.some_bind]
        cases hrest : loadThemesFromDirectory mid.1 themeType ys with
        | none => rfl
        | some rest => simp [Nat.add_assoc]

theorem loadFile_valid_entries (reg : Registry) (themeType : String) (f : ThemeFile)
    (step : Registry × Nat) (h : loadFile reg themeType f = some step)
    (hreg : ∀ p ∈ reg, validateTheme p.2.data = true) :
    ∀ q ∈ step.1, validateTheme q.2.data = true := by
  intro q hq
  cases hc : f.content with
  | record td =>
    rw [loadFile_record hc] at h
    by_cases hv : validateTheme td = true
    · rw [if_pos hv, Option.some.injEq] at h
      rw [← h] at hq
      rcases mem_insertTheme hq with rfl | hq
      · exact hv
      · exact hreg q hq
    · rw [if_neg hv, Option.some.injEq] at h
      rw [← h] at hq
      exact hreg q hq
  | caughtError =>
    rw [loadFile_caught hc, Option.some.injEq] at h
    rw [← h] at hq
    exact hreg q hq
  | nonRecord => rw [loadFile_abort (Or.inl hc)] at h; simp at h
  | uncaughtError => rw [loadFile_abort (Or.inr hc)] at h; simp at h

theorem loadDir_valid_entries (themeType : String) :
    ∀ (files : List ThemeFile) (reg : Registry) (res : Registry × Nat),
      (∀ p ∈ reg, validateTheme p.2.data = true) →
      loadThemesFromDirectory reg themeType files = some res →
      ∀ p ∈ res.1, validateTheme p.2.data = true := by
  intro files
  induction files with
  | nil =>
    intro reg res hreg h p hp
    rw [loadDir_nil, Option.some.injEq] at h
    rw [← h] at hp
    exact hreg p hp
  | cons f fs ih =>
    intro reg res hreg h
    rw [loadDir_cons] at h
    cases hx : loadFile reg themeType f with
    | none => rw [hx] at h; simp at h
    | some step =>
      rw [hx] at h
      simp only [Option.some_bind] at h
      cases hd : loadThemesFromDirectory step.1 themeType fs with
      | none => rw [hd] at h; simp at h
      | some rest =>
        rw [hd] at h
        simp only [Option.map_some', Option.some.injEq] at h
        intro p hp
        rw [← h] at hp
        exact ih step.1 rest (loadFile_valid_entries reg themeType f step hx hreg) hd p hp

theorem loadDir_lookup_preserved (themeType k : String) :
    ∀ (ys : List ThemeFile),
      (∀ g ∈ ys, ∀ td, g.content = FileParse.record td → validateTheme td = true →
        themeKey g td ≠ k) →
      ∀ (reg : Registry) (res : Registry × Nat),
        loadThemesFromDirectory reg themeType ys = some res →
        lookupReg res.1 k = lookupReg reg k := by
  intro ys
  induction ys with
  | nil =>
    intro _ reg res h
    rw [loadDir_nil, Option.some.injEq] at h
    rw [← h]
  | cons g gs ih =>
    intro hys reg res h
    rw [loadDir_cons] at h
    cases hx : loadFile reg themeType g with
    | none => rw [hx] at h; simp at h
    | some step =>
      rw [hx] at h
      simp only [Option.some_bind] at h
      cases hd : loadThemesFromDirectory step.1 themeType gs with
      | none => rw [hd] at h; simp at h
      | some rest =>
        rw [hd] at h
        simp only [Option.map_some', Option.some.injEq] at h
        have hstep : lookupReg step.1 k = lookupReg reg k := by
          cases hc : g.content with
          | record td =>
            rw [loadFile_record hc] at hx
            by_cases hv : validateTheme td = true
            · rw [if_pos hv, Option.some.injEq] at hx
              have hne : (themeKey g td == k) = false := by
                rw [beq_eq_false_iff_ne]
                exact hys g (by simp) td hc hv
              rw [← hx]
              exact lookup_insert_ne reg _ hne
            · rw [if_neg hv, Option.some.injEq] at hx
              rw [← hx]
          | caughtError =>
            rw [loadFile_caught hc, Option.some.injEq] at hx
            rw [← hx]
          | nonRecord => rw [loadFile_abort (Or.inl hc)] at hx; simp at hx
          | uncaughtError => rw [loadFile_abort (Or.inr hc)] at hx; simp at hx
        have hrest : lookupReg rest.1 k = lookupReg step.1 k :=
          ih (fun g2 hg2 => hys g2 (by simp [hg2])) step.1 rest hd
        rw [← h]
        exact hrest.trans hstep

theorem addCustomTheme_record {f : ThemeFile} {td : ThemeData}
    (h : f.content = FileParse.record td) (st : LoaderState) (permanent : Bool) :
    addCustomTheme st f permanent =
      if validateTheme td then
        (true, ⟨insertTheme st.themes (themeKey f td) ⟨td, none, none⟩,
          if permanent then st.customDirFiles ++ [themeKey f td ++ "_theme.json"]
          else st.customDirFiles⟩)
      else (false, st) := by
  unfold addCustomTheme
  rw [h]

theorem addCustomTheme_notRecord {f : ThemeFile}
    (h : ∀ td, f.content ≠ FileParse.record td) (st : LoaderState) (permanent : Bool) :
    addCustomTheme st f permanent = (false, st) := by
  cases hc : f.content with
  | record td => exact absurd hc (h td)
  | caughtError => unfold addCustomTheme; rw [hc]
  | nonRecord => unfold addCustomTheme; rw [hc]
  | uncaughtError => unfold addCustomTheme; rw [hc]

theorem addCustomTheme_valid_entries (st : LoaderState) (f : ThemeFile)
    (permanent : Bool) (hst : ∀ p ∈ st.themes, validateTheme p.2.data = true) :
    ∀ q ∈ (addCustomTheme st f permanent).2.themes, validateTheme q.2.data = true := by
  intro q hq
  cases hc : f.content with
  | record td =>
    rw [addCustomTheme_record hc] at hq
    by_cases hv : validateTheme td = true
    · rw [if_pos hv] at hq
      rcases mem_insertTheme hq with rfl | hq
      · exact hv
      · exact hst q hq
    · rw [if_neg hv] at hq
      exact hst q hq
  | caughtError =>
    rw [addCustomTheme_notRecord (fun td h2 => by rw [hc] at h2; exact absurd h2 (by simp))] at hq
    exact hst q hq
  | nonRecord =>
    rw [addCustomTheme_notRecord (fun td h2 => by rw [hc] at h2; exact absurd h2 (by simp))] at hq
    exact hst q hq
  | uncaughtError =>
    rw [addCustomTheme_notRecord (fun td h2 => by rw [hc] at h2; exact absurd h2 (by simp))] at hq
    exact hst q hq

/-! ## Claim C1 -/

/-- C1, counterexample: at drama level 7 the built request does not carry the
spec's `min(200, 100 + 10 × 7) = 170` output-token budget nor the
`min(1.0, 0.5 + 0.05 × 7) = 0.85` temperature: the code hard-codes
`max_tokens = 150` and `temperature = 0.8` for every level. -/
theorem c1_counterexample :
    (epicRequest "model-x" "medieval" "Fixed minor bug in login form" 7).maxTokens = 150 ∧
    specMaxTokens 7 = 170 ∧
    (epicRequest "model-x" "medieval" "Fixed minor bug in login form" 7).maxTokens ≠
      specMaxTokens 7 ∧
    (epicRequest "model-x" "medieval" "Fixed minor bug in login form" 7).temperature = 4/5 ∧
    specTemperature 7 = 17/20 ∧
    (epicRequest "model-x" "medieval" "Fixed minor bug in login form" 7).temperature ≠
      specTemperature 7 := by
  refine ⟨rfl, by decide, by decide, ?_, ?_, ?_⟩
  · show (0.8 : ℚ) = 4/5
    norm_num
  · show (min 1 (1/2 + (1/20) * (7 : ℕ)) : ℚ) = 17/20
    norm_num
  · show (0.8 : ℚ) ≠ min 1 (1/2 + (1/20) * (7 : ℕ))
    norm_num

/-- C1, amended claim: for every drama level the generation request built from
(theme, level, text) has `max_output_tokens = 150` and `temperature = 0.8`,
independent of the level; these constants are (trivially) monotonically
non-decreasing in the level and never exceed 200 / 1.0. -/
theorem c1_amended (model theme text : String) (level : Nat) :
    (buildPayload model theme text level).maxTokens = 150 ∧
    (buildPayload model theme text level).temperature = 0.8 ∧
    (buildPayload model theme text level).maxTokens ≤ 200 ∧
    (buildPayload model theme text level).temperature ≤ 1 ∧
    ∀ higher : Nat,
      (buildPayload model theme text level).maxTokens ≤
          (buildPayload model theme text higher).maxTokens ∧
        (buildPayload model theme text level).temperature ≤
          (buildPayload model theme text higher).temperature := by
  refine ⟨rfl, rfl, ?_, ?_, fun higher => ⟨le_refl _, le_refl _⟩⟩
  · show (150 : Nat) ≤ 200
    decide
  · show (0.8 : ℚ) ≤ 1
    norm_num

/-! ## Claim C2 -/

/-- C2, counterexample: the generation requests built at the claimed band
boundaries 3/4, 6/7 and 8/9 are character-for-character identical, so no
level-selected drama directive distinguishes them (the code contains no
`drama_directive` at all and never reads the level). -/
theorem c2_counterexample :
    epicRequest "model-x" "medieval" "Fixed minor bug in login form" 3 =
      epicRequest "model-x" "medieval" "Fixed minor bug in login form" 4 ∧
    epicRequest "model-x" "medieval" "Fixed minor bug in login form" 6 =
      epicRequest "model-x" "medieval" "Fixed minor bug in login form" 7 ∧
    epicRequest "model-x" "medieval" "Fixed minor bug in login form" 8 =
      epicRequest "model-x" "medieval" "Fixed minor bug in login form" 9 :=
  ⟨rfl, rfl, rfl⟩

/-- C2, amended claim: there is no drama directive; the built request is the
same for all drama levels (the level argument is ignored by
`generate_epic_changelog`). -/
theorem c2_amended (model theme text : String) (level1 level2 : Nat) :
    epicRequest model theme text level1 = epicRequest model theme text level2 := rfl

/-! ## Claim C3 -/

/-- C3, counterexample: for the medieval theme at level 7 with input
"Fixed minor bug in login form", the system-instruction string contains none of
the substrings "epic fantasy adventure" (the tone), "vanquished" (vocabulary)
or "dragon" (metaphors): the looked-up theme data is never used in the request. -/
theorem c3_counterexample :
    (epicRequest "model-x" "medieval" "Fixed minor bug in login form" 7).messages =
      [("system", systemContent "medieval"),
        ("user", userContent "Fixed minor bug in login form")] ∧
    strContainsStr (systemContent "medieval") "epic fantasy adventure" = false ∧
    strContainsStr (systemContent "medieval") "vanquished" = false ∧
    strContainsStr (systemContent "medieval") "dragon" = false :=
  ⟨rfl, by decide, by decide, by decide⟩

/-- C3, amended claim: the system-instruction string of the built request is a
fixed template around the theme name; it contains the theme name itself, but
the theme's tone, vocabulary and metaphors never appear in the request. -/
theorem c3_amended (model theme text : String) (level : Nat) :
    (buildPayload model theme text level).messages =
      [("system", systemContent theme), ("user", userContent text)] ∧
    strContainsStr (systemContent theme) theme = true := by
  refine ⟨rfl, ?_⟩
  unfold strContainsStr systemContent
  rw [String.data_append, String.data_append, List.append_assoc]
  exact listSub_append_left _ (listSub_self_append _ _)

/-! ## Claim C10 -/

/-- C10: for every theme name not among the agent's known themes,
`generate_epic_changelog` behaves exactly as if called with theme "medieval":
the name is replaced before any request is built, the request and the response
decoration coincide with the medieval ones, and no error signal exists. -/
theorem c10_unknown_theme_fallback (theme : String)
    (h : knownThemes.contains theme = false) (model text : String) (level : Nat)
    (content : List Char) :
    normalizeTheme theme = "medieval" ∧
    epicRequest model theme text level = epicRequest model "medieval" text level ∧
    epicDecorate theme content = epicDecorate "medieval" content := by
  have hn : normalizeTheme theme = "medieval" := by
    unfold normalizeTheme
    rw [h]
    rfl
  have hm : normalizeTheme "medieval" = "medieval" := by decide
  refine ⟨hn, ?_, ?_⟩
  · unfold epicRequest
    rw [hn, hm]
  · unfold epicDecorate
    rw [hn, hm]

/-- C10, witness: the unknown theme "pirate" yields exactly the medieval
request and the medieval decoration. -/
theorem c10_witness :
    epicRequest "model-x" "pirate" "Fixed minor bug in login form" 7 =
      epicRequest "model-x" "medieval" "Fixed minor bug in login form" 7 ∧
    epicDecorate "pirate" "Squashed the bug".data =
      epicDecorate "medieval" "Squashed the bug".data := by
  have h := c10_unknown_theme_fallback "pirate" (by decide) "model-x"
    "Fixed minor bug in login form" 7 "Squashed the bug".data
  exact ⟨h.2.1, h.2.2⟩

/-! ## Claim C4 -/

/-- C4, counterexample: a definition whose `vocabulary` and `metaphors` keys
are present but hold empty arrays passes validation and is inserted into the
registry by `load()` — it is not rejected. -/
theorem c4_counterexample :
    validateTheme ⟨some "hollow", none, none, none, some [], some [], some "empty tone"⟩ =
      true ∧
    loadThemes
        [⟨"hollow_theme", "Themes/Default_Themes/hollow_theme.json",
          FileParse.record
            ⟨some "hollow", none, none, none, some [], some [], some "empty tone"⟩⟩]
        [] =
      some [("hollow",
        ⟨⟨some "hollow", none, none, none, some [], some [], some "empty tone"⟩,
          some "default", some "Themes/Default_Themes/hollow_theme.json"⟩)] ∧
    lookupReg
        [("hollow",
          ⟨⟨some "hollow", none, none, none, some [], some [], some "empty tone"⟩,
            some "default", some "Themes/Default_Themes/hollow_theme.json"⟩)]
        "hollow" =
      some ⟨⟨some "hollow", none, none, none, some [], some [], some "empty tone"⟩,
        some "default", some "Themes/Default_Themes/hollow_theme.json"⟩ :=
  ⟨rfl, rfl, rfl⟩

/-- C4, amended claim: every theme that enters the registry — whether through
`load()` or through `add_custom_theme` — has its `vocabulary`, `metaphors` and
`tone` keys present, which is exactly what `_validate_theme` checks;
non-emptiness of the arrays is not enforced. -/
theorem c4_amended :
    (∀ (defaultFiles customFiles : List ThemeFile) (reg : Registry) (k : String)
        (v : StoredTheme),
      loadThemes defaultFiles customFiles = some reg → lookupReg reg k = some v →
      validateTheme v.data = true) ∧
    (∀ (st : LoaderState) (f : ThemeFile) (permanent : Bool) (k : String)
        (v : StoredTheme),
      (∀ p ∈ st.themes, validateTheme p.2.data = true) →
      lookupReg (addCustomTheme st f permanent).2.themes k = some v →
      validateTheme v.data = true) := by
  constructor
  · intro defaultFiles customFiles reg k v hload hlook
    rcases lookup_mem hlook with ⟨q, hq, rfl⟩
    unfold loadThemes at hload
    cases h1 : loadThemesFromDirectory [] "Default" defaultFiles with
    | none => rw [h1] at hload; simp at hload
    | some r1 =>
      rw [h1] at hload
      simp only [Option.some_bind] at hload
      cases h2 : loadThemesFromDirectory r1.1 "Custom" customFiles with
      | none => rw [h2] at hload; simp at hload
      | some r2 =>
        rw [h2] at hload
        simp only [Option.map_some', Option.some.injEq] at hload
        have hd : ∀ p ∈ r1.1, validateTheme p.2.data = true :=
          loadDir_valid_entries "Default" defaultFiles [] r1 (by intro p hp; simp at hp) h1
        have hc : ∀ p ∈ r2.1, validateTheme p.2.data = true :=
          loadDir_valid_entries "Custom" customFiles r1.1 r2 hd h2
        exact hc q (hload ▸ hq)
  · intro st f permanent k v hst hlook
    rcases lookup_mem hlook with ⟨q, hq, rfl⟩
    exact addCustomTheme_valid_entries st f permanent hst q hq

/-- C4, witness: the amended claim applied to a concrete theme loaded from the
default directory and a concrete theme added via `add_custom_theme`. -/
theorem c4_witness :
    validateTheme
      (StoredTheme.data
        ⟨⟨some "medieval", none, none, none, some ["vanquished"], some ["dragon"],
            some "epic fantasy adventure"⟩,
          some "default", some "Themes/Default_Themes/medieval_theme.json"⟩) = true ∧
    validateTheme
      (StoredTheme.data
        ⟨⟨some "pirate", none, none, none, some ["plundered"], some ["kraken"],
            some "swashbuckling saga"⟩, none, none⟩) = true := by
  constructor
  · exact c4_amended.1
      [⟨"medieval_theme", "Themes/Default_Themes/medieval_theme.json",
        FileParse.record ⟨some "medieval", none, none, none, some ["vanquished"],
          some ["dragon"], some "epic fantasy adventure"⟩⟩]
      []
      [("medieval",
        ⟨⟨some "medieval", none, none, none, some ["vanquished"], some ["dragon"],
            some "epic fantasy adventure"⟩,
          some "default", some "Themes/Default_Themes/medieval_theme.json"⟩)]
      "medieval"
      ⟨⟨some "medieval", none, none, none, some ["vanquished"], some ["dragon"],
          some "epic fantasy adventure"⟩,
        some "default", some "Themes/Default_Themes/medieval_theme.json"⟩
      rfl rfl
  · exact c4_amended.2 ⟨[], []⟩
      ⟨"pirate_theme", "downloads/pirate_theme.json",
        FileParse.record ⟨some "pirate", none, none, none, some ["plundered"],
          some ["kraken"], some "swashbuckling saga"⟩⟩
      true "pirate"
      ⟨⟨some "pirate", none, none, none, some ["plundered"], some ["kraken"],
          some "swashbuckling saga"⟩, none, none⟩
      (by intro p hp; simp at hp) rfl

/-! ## Claim C5 -/

/-- C5: when a theme of the same registry key is present in both the default
directory and the custom directory — the custom file being the last custom
definition of that key — a completed `load()` leaves the registry mapping that
key to the custom version: default files load first, the custom file is
inserted afterwards and overwrites. -/
theorem c5_custom_overrides_default (defaultFiles cxs cys : List ThemeFile)
    (df cf : ThemeFile) (dtd ctd : ThemeData) (k : String) (reg : Registry)
    (hdmem : df ∈ defaultFiles) (hdc : df.content = FileParse.record dtd)
    (hdv : validateTheme dtd = true) (hdk : themeKey df dtd = k)
    (hcc : cf.content = FileParse.record ctd) (hcv : validateTheme ctd = true)
    (hck : themeKey cf ctd = k)
    (hlast : ∀ g ∈ cys, ∀ td, g.content = FileParse.record td →
      validateTheme td = true → themeKey g td ≠ k)
    (hload : loadThemes defaultFiles (cxs ++ cf :: cys) = some reg) :
    lookupReg reg k = some ⟨ctd, some "custom", some cf.path⟩ := by
  unfold loadThemes at hload
  cases h1 : loadThemesFromDirectory [] "Default" defaultFiles with
  | none => rw [h1] at hload; simp at hload
  | some r1 =>
    rw [h1] at hload
    simp only [Option.some_bind] at hload
    rw [loadDir_append "Custom" cxs (cf :: cys) r1.1] at hload
    cases h2 : loadThemesFromDirectory r1.1 "Custom" cxs with
    | none => rw [h2] at hload; simp at hload
    | some mid =>
      rw [h2] at hload
      simp only [Option.some_bind] at hload
      rw [loadDir_cons, loadFile_record hcc, if_pos hcv, hck] at hload
      simp only [Option.some_bind] at hload
      cases h3 : loadThemesFromDirectory
          (insertTheme mid.1 k ⟨ctd, some (strToLower "Custom"), some cf.path⟩)
          "Custom" cys with
      | none => rw [h3] at hload; simp at hload
      | some fin =>
        rw [h3] at hload
        simp only [Option.map_some', Option.some.injEq] at hload
        have hfin : lookupReg fin.1 k =
            lookupReg (insertTheme mid.1 k ⟨ctd, some (strToLower "Custom"), some cf.path⟩) k :=
          loadDir_lookup_preserved "Custom" k cys hlast _ fin h3
        rw [← hload, hfin, lookup_insert]
        rfl

/-- C5, witness: with a medieval theme in the default directory and a custom
directory holding a space theme, the colliding medieval theme and a mythology
theme after it, lookup resolves to the custom medieval version. -/
theorem c5_witness :
    lookupReg
        [("medieval",
          ⟨⟨some "medieval", none, none, none, some ["vanquished"], some ["dragon"],
              some "epic fantasy adventure"⟩,
            some "custom", some "Themes/Custom_Themes/medieval_theme.json"⟩),
          ("space",
          ⟨⟨some "space", none, none, none, some ["launched"], some ["starship"],
              some "galactic space opera"⟩,
            some "custom", some "Themes/Custom_Themes/space_theme.json"⟩),
          ("mythology",
          ⟨⟨some "mythology", none, none, none, some ["decreed"], some ["oracle"],
              some "mythological epic"⟩,
            some "custom", some "Themes/Custom_Themes/mythology_theme.json"⟩)]
        "medieval" =
      some ⟨⟨some "medieval", none, none, none, some ["vanquished"], some ["dragon"],
          some "epic fantasy adventure"⟩,
        some "custom", some "Themes/Custom_Themes/medieval_theme.json"⟩ := by
  apply c5_custom_overrides_default
    [⟨"medieval_theme", "Themes/Default_Themes/medieval_theme.json",
      FileParse.record ⟨some "medieval", none, none, none, some ["valiant"],
        some ["sword"], some "plain heroic prose"⟩⟩]
    [⟨"space_theme", "Themes/Custom_Themes/space_theme.json",
      FileParse.record ⟨some "space", none, none, none, some ["launched"],
        some ["starship"], some "galactic space opera"⟩⟩]
    [⟨"mythology_theme", "Themes/Custom_Themes/mythology_theme.json",
      FileParse.record ⟨some "mythology", none, none, none, some ["decreed"],
        some ["oracle"], some "mythological epic"⟩⟩]
    ⟨"medieval_theme", "Themes/Default_Themes/medieval_theme.json",
      FileParse.record ⟨some "medieval", none, none, none, some ["valiant"],
        some ["sword"], some "plain heroic prose"⟩⟩
    ⟨"medieval_theme", "Themes/Custom_Themes/medieval_theme.json",
      FileParse.record ⟨some "medieval", none, none, none, some ["vanquished"],
        some ["dragon"], some "epic fantasy adventure"⟩⟩
    ⟨some "medieval", none, none, none, some ["valiant"], some ["sword"],
      some "plain heroic prose"⟩
    ⟨some "medieval", none, none, none, some ["vanquished"], some ["dragon"],
      some "epic fantasy adventure"⟩
    "medieval"
  · simp
  · rfl
  · rfl
  · rfl
  · rfl
  · rfl
  · rfl
  · intro g hg td hc2 _
    have hg2 : g = ⟨"mythology_theme", "Themes/Custom_Themes/mythology_theme.json",
        FileParse.record ⟨some "mythology", none, none, none, some ["decreed"],
          some ["oracle"], some "mythological epic"⟩⟩ := by
      simpa using hg
    subst hg2
    have htd : td = ⟨some "mythology", none, none, none, some ["decreed"],
        some ["oracle"], some "mythological epic"⟩ := by
      have := hc2.symm
      simpa [FileParse.record.injEq] using this
    subst htd
    decide
  · rfl

/-! ## Claim C6 -/

/-- C6, counterexample: a well-formed JSON file whose top level is not an
object (such as `42`) escapes the loader's
`except (json.JSONDecodeError, FileNotFoundError)` handler — `_validate_theme`
raises `TypeError` — and aborts the whole load: with it present, `load()`
produces no registry at all and the medieval file after it is never loaded;
without it, the medieval theme loads. The registry state is not the same, and
the corrupt file does prevent the remaining files from being loaded. -/
theorem c6_counterexample :
    loadThemes
        [⟨"fortytwo_theme", "Themes/Default_Themes/fortytwo_theme.json",
          FileParse.nonRecord⟩,
          ⟨"medieval_theme", "Themes/Default_Themes/medieval_theme.json",
            FileParse.record ⟨some "medieval", none, none, none, some ["vanquished"],
              some ["dragon"], some "epic fantasy adventure"⟩⟩]
        [] = none ∧
    loadThemes
        [⟨"medieval_theme", "Themes/Default_Themes/medieval_theme.json",
          FileParse.record ⟨some "medieval", none, none, none, some ["vanquished"],
            some ["dragon"], some "epic fantasy adventure"⟩⟩]
        [] =
      some [("medieval",
        ⟨⟨some "medieval", none, none, none, some ["vanquished"], some ["dragon"],
            some "epic fantasy adventure"⟩,
          some "default", some "Themes/Default_Themes/medieval_theme.json"⟩)] ∧
    (none : Option Registry) ≠
      some [("medieval",
        ⟨⟨some "medieval", none, none, none, some ["vanquished"], some ["dragon"],
            some "epic fantasy adventure"⟩,
          some "default", some "Themes/Default_Themes/medieval_theme.json"⟩)] :=
  ⟨rfl, rfl, by simp⟩

/-- C6, amended claim: a definition file whose failure the loader catches — a
parse or read error of the handled exception classes, or a well-formed record
missing a required field — contributes zero registry entries and zero count,
and the load result over both directories is exactly as if the file were
absent; but a file whose processing raises outside those classes (well-formed
non-object JSON, or a file the reader cannot decode) aborts the entire load. -/
theorem c6_amended (f g : ThemeFile) (hf : skippedThemeFile f)
    (hg : abortingThemeFile g) (dxs dys cfs dfs cxs cys : List ThemeFile) :
    (loadThemes (dxs ++ f :: dys) cfs = loadThemes (dxs ++ dys) cfs ∧
      loadThemes dfs (cxs ++ f :: cys) = loadThemes dfs (cxs ++ cys)) ∧
    (loadThemes (dxs ++ g :: dys) cfs = none ∧
      loadThemes dfs (cxs ++ g :: cys) = none) := by
  refine ⟨⟨?_, ?_⟩, ?_, ?_⟩
  · unfold loadThemes
    rw [loadDir_skip_bad hf "Default"]
  · unfold loadThemes
    simp only [loadDir_skip_bad hf "Custom"]
  · unfold loadThemes
    rw [loadDir_abort hg "Default"]
    rfl
  · unfold loadThemes
    simp only [loadDir_abort hg "Custom"]
    cases hd : loadThemesFromDirectory [] "Default" dfs <;> simp [hd]

/-- C6, witness: a concrete file of a caught parse-error class leaves a
concrete load unchanged, while a concrete non-object JSON file aborts it. -/
theorem c6_witness :
    (loadThemes
          [⟨"medieval_theme", "Themes/Default_Themes/medieval_theme.json",
            FileParse.record ⟨some "medieval", none, none, none, some ["vanquished"],
              some ["dragon"], some "epic fantasy adventure"⟩⟩,
            ⟨"broken_theme", "Themes/Default_Themes/broken_theme.json",
              FileParse.caughtError⟩]
          [] =
        loadThemes
          [⟨"medieval_theme", "Themes/Default_Themes/medieval_theme.json",
            FileParse.record ⟨some "medieval", none, none, none, some ["vanquished"],
              some ["dragon"], some "epic fantasy adventure"⟩⟩]
          [] ∧
      loadThemes
          [⟨"medieval_theme", "Themes/Default_Themes/medieval_theme.json",
            FileParse.record ⟨some "medieval", none, none, none, some ["vanquished"],
              some ["dragon"], some "epic fantasy adventure"⟩⟩]
          [⟨"broken_theme", "Themes/Custom_Themes/broken_theme.json",
            FileParse.caughtError⟩] =
        loadThemes
          [⟨"medieval_theme", "Themes/Default_Themes/medieval_theme.json",
            FileParse.record ⟨some "medieval", none, none, none, some ["vanquished"],
              some ["dragon"], some "epic fantasy adventure"⟩⟩]
          []) ∧
    (loadThemes
          [⟨"fortytwo_theme", "Themes/Default_Themes/fortytwo_theme.json",
            FileParse.nonRecord⟩]
          [] = none ∧
      loadThemes []
          [⟨"fortytwo_theme", "Themes/Custom_Themes/fortytwo_theme.json",
            FileParse.nonRecord⟩] = none) :=
  c6_amended
    ⟨"broken_theme", "Themes/Default_Themes/broken_theme.json", FileParse.caughtError⟩
    ⟨"fortytwo_theme", "Themes/Default_Themes/fortytwo_theme.json", FileParse.nonRecord⟩
    (Or.inl rfl) (Or.inl rfl)
    [⟨"medieval_theme", "Themes/Default_Themes/medieval_theme.json",
      FileParse.record ⟨some "medieval", none, none, none, some ["vanquished"],
        some ["dragon"], some "epic fantasy adventure"⟩⟩]
    [] []
    [⟨"medieval_theme", "Themes/Default_Themes/medieval_theme.json",
      FileParse.record ⟨some "medieval", none, none, none, some ["vanquished"],
        some ["dragon"], some "epic fantasy adventure"⟩⟩]
    [] []

/-! ## Claim C7 -/

/-- C7, counterexample: the loader stores keys verbatim (here the `name` field
"Medieval", capitalised), while `get_theme` lowercases only the query; the
theme stored under "Medieval" cannot be retrieved even by its exact name,
so lookup is not case-insensitive for every stored theme. -/
theorem c7_counterexample :
    loadThemes
        [⟨"Medieval_theme", "Themes/Default_Themes/Medieval_theme.json",
          FileParse.record ⟨some "Medieval", none, none, none, some ["vanquished"],
            some ["dragon"], some "epic fantasy adventure"⟩⟩]
        [] =
      some [("Medieval",
        ⟨⟨some "Medieval", none, none, none, some ["vanquished"], some ["dragon"],
            some "epic fantasy adventure"⟩,
          some "default", some "Themes/Default_Themes/Medieval_theme.json"⟩)] ∧
    lookupReg
        [("Medieval",
          ⟨⟨some "Medieval", none, none, none, some ["vanquished"], some ["dragon"],
              some "epic fantasy adventure"⟩,
            some "default", some "Themes/Default_Themes/Medieval_theme.json"⟩)]
        "Medieval" =
      some ⟨⟨some "Medieval", none, none, none, some ["vanquished"], some ["dragon"],
          some "epic fantasy adventure"⟩,
        some "default", some "Themes/Default_Themes/Medieval_theme.json"⟩ ∧
    getTheme
        [("Medieval",
          ⟨⟨some "Medieval", none, none, none, some ["vanquished"], some ["dragon"],
              some "epic fantasy adventure"⟩,
            some "default", some "Themes/Default_Themes/Medieval_theme.json"⟩)]
        "Medieval" = none :=
  ⟨rfl, rfl, rfl⟩

/-- C7, amended claim: `get_theme` lowercases the query before the lookup, so
any two case variants of a name retrieve the same result, a theme stored under
a lowercase key is retrieved by every case variant of it, and a name whose
lowercasing matches no stored key yields the explicit not-found signal `none`
(never a default theme). -/
theorem c7_amended (reg : Registry) (n1 n2 : String)
    (hvar : strToLower n1 = strToLower n2) (miss : String)
    (hmiss : ∀ p ∈ reg, (p.1 == strToLower miss) = false)
    (stored : String) (v : StoredTheme)
    (hstored : lookupReg reg (strToLower stored) = some v) :
    getTheme reg n1 = getTheme reg n2 ∧
    getTheme reg miss = none ∧
    getTheme reg stored = some v := by
  refine ⟨?_, ?_, hstored⟩
  · unfold getTheme
    rw [hvar]
  · exact lookup_none hmiss

/-- C7, witness: on a registry holding the lowercase key "medieval",
`get("MEDIEVAL")` equals `get("medieval")` and retrieves the stored entry,
while `get("dinosaur")` reports not-found. -/
theorem c7_witness :
    getTheme
        [("medieval",
          ⟨⟨some "medieval", none, none, none, some ["vanquished"], some ["dragon"],
              some "epic fantasy adventure"⟩,
            some "default", some "Themes/Default_Themes/medieval_theme.json"⟩)]
        "MEDIEVAL" =
      getTheme
        [("medieval",
          ⟨⟨some "medieval", none, none, none, some ["vanquished"], some ["dragon"],
              some "epic fantasy adventure"⟩,
            some "default", some "Themes/Default_Themes/medieval_theme.json"⟩)]
        "medieval" ∧
    getTheme
        [("medieval",
          ⟨⟨some "medieval", none, none, none, some ["vanquished"], some ["dragon"],
              some "epic fantasy adventure"⟩,
            some "default", some "Themes/Default_Themes/medieval_theme.json"⟩)]
        "dinosaur" = none ∧
    getTheme
        [("medieval",
          ⟨⟨some "medieval", none, none, none, some ["vanquished"], some ["dragon"],
              some "epic fantasy adventure"⟩,
            some "default", some "Themes/Default_Themes/medieval_theme.json"⟩)]
        "MEDIEVAL" =
      some ⟨⟨some "medieval", none, none, none, some ["vanquished"], some ["dragon"],
          some "epic fantasy adventure"⟩,
        some "default", some "Themes/Default_Themes/medieval_theme.json"⟩ :=
  c7_amended
    [("medieval",
      ⟨⟨some "medieval", none, none, none, some ["vanquished"], some ["dragon"],
          some "epic fantasy adventure"⟩,
        some "default", some "Themes/Default_Themes/medieval_theme.json"⟩)]
    "MEDIEVAL" "medieval" rfl "dinosaur" (by decide) "MEDIEVAL"
    ⟨⟨some "medieval", none, none, none, some ["vanquished"], some ["dragon"],
        some "epic fantasy adventure"⟩,
      some "default", some "Themes/Default_Themes/medieval_theme.json"⟩
    rfl

/-! ## Claim C9 -/

/-- C9: for a file that does not yield a well-formed record (any parse-time
exception) or whose record fails validation,
`add_custom_theme(path, permanent=True)` returns failure without raising, and
neither the registry nor the custom-theme directory changes: nothing is copied
and nothing is inserted. -/
theorem c9_invalid_add_is_noop (st : LoaderState) (f : ThemeFile)
    (h : badThemeFile f) :
    addCustomTheme st f true = (false, st) := by
  rcases h with h | ⟨td, hc, hv⟩
  · exact addCustomTheme_notRecord h st true
  · rw [addCustomTheme_record hc, if_neg (by simp [hv])]

/-- C9, witness: adding a concrete unparsable file to a concrete loader state
fails and leaves the state untouched. -/
theorem c9_witness :
    addCustomTheme
        ⟨[("medieval",
            ⟨⟨some "medieval", none, none, none, some ["vanquished"], some ["dragon"],
                some "epic fantasy adventure"⟩,
              some "default", some "Themes/Default_Themes/medieval_theme.json"⟩)],
          ["pirate_theme.json"]⟩
        ⟨"broken_theme", "downloads/broken_theme.json", FileParse.caughtError⟩ true =
      (false,
        ⟨[("medieval",
            ⟨⟨some "medieval", none, none, none, some ["vanquished"], some ["dragon"],
                some "epic fantasy adventure"⟩,
              some "default", some "Themes/Default_Themes/medieval_theme.json"⟩)],
          ["pirate_theme.json"]⟩) :=
  c9_invalid_add_is_noop
    ⟨[("medieval",
        ⟨⟨some "medieval", none, none, none, some ["vanquished"], some ["dragon"],
            some "epic fantasy adventure"⟩,
          some "default", some "Themes/Default_Themes/medieval_theme.json"⟩)],
      ["pirate_theme.json"]⟩
    ⟨"broken_theme", "downloads/broken_theme.json", FileParse.caughtError⟩
    (Or.inl fun td => by simp)

/-! ## Claim C8 -/

/-- C8, counterexample: post-processing is not "unchanged apart from trimming"
on text that already contains a decorative symbol: the `<think>`-marker removal
of line 137 sits between the trim and the decoration check and deletes text,
so `"⚔️ Vanquished the login demon!<think>"` comes back altered beyond
trimming. -/
theorem c8_counterexample :
    hasDecoration (trimChars "⚔️ Vanquished the login demon!<think>".data) = true ∧
    postprocessResponse "medieval" "⚔️ Vanquished the login demon!<think>".data =
      "⚔️ Vanquished the login demon!".data ∧
    postprocessResponse "medieval" "⚔️ Vanquished the login demon!<think>".data ≠
      trimChars "⚔️ Vanquished the login demon!<think>".data :=
  ⟨by decide, by decide, by decide⟩

/-- C8, amended claim: for raw output whose trimmed text contains neither
`<think>` nor `</think>`, post-processing is trimming plus at most one
decoration: trimmed text already containing one of the fixed decorative
symbols is returned unchanged beyond trimming; text containing none is
returned with exactly one theme emoji and a separating space prefixed
(falling back to a generic symbol for a theme outside the emoji map); and
re-applying the post-processing to its own output is a no-op beyond trimming.
On text containing think-markers, the marker cleanup may remove more. -/
theorem c8_amended (theme : String) (raw : List Char)
    (h1 : listSub "<think>".data (trimChars raw) = false)
    (h2 : listSub "</think>".data (trimChars raw) = false) :
    (hasDecoration (trimChars raw) = true →
      postprocessResponse theme raw = trimChars raw) ∧
    (hasDecoration (trimChars raw) = false →
      postprocessResponse theme raw = (emojiMap theme).data ++ ' ' :: trimChars raw) ∧
    postprocessResponse theme (postprocessResponse theme raw) =
      trimChars (postprocessResponse theme raw) := by
  obtain ⟨hmem, hne, hnws, hlt⟩ := emojiMap_spec theme
  have hclean : cleanResponse raw = trimChars raw := cleanResponse_no_tags raw h1 h2
  have hdecomp1 : "<think>".data = '<' :: "think>".data := rfl
  have hdecomp2 : "</think>".data = '<' :: "/think>".data := rfl
  have hpree : ∀ c ∈ (emojiMap theme).data, c ≠ '<' := fun c hc he => hlt (he ▸ hc)
  have hpre : ∀ c ∈ (emojiMap theme).data ++ [' '], c ≠ '<' := by
    intro c hc
    rcases List.mem_append.1 hc with hc | hc
    · exact hpree c hc
    · rw [List.mem_singleton] at hc
      subst hc
      decide
  refine ⟨?_, ?_, ?_⟩
  · intro h
    unfold postprocessResponse
    rw [hclean]
    simp [decorateContent, h]
  · intro h
    unfold postprocessResponse
    rw [hclean]
    simp [decorateContent, h]
  · by_cases h : hasDecoration (trimChars raw) = true
    · have hp : postprocessResponse theme raw = trimChars raw := by
        unfold postprocessResponse
        rw [hclean]
        simp [decorateContent, h]
      rw [hp]
      have hclean2 : cleanResponse (trimChars raw) = trimChars (trimChars raw) := by
        apply cleanResponse_no_tags
        · rw [trim_trim]
          exact h1
        · rw [trim_trim]
          exact h2
      unfold postprocessResponse
      rw [hclean2, trim_trim]
      simp [decorateContent, h]
    · rw [Bool.not_eq_true] at h
      have hp : postprocessResponse theme raw =
          (emojiMap theme).data ++ ' ' :: trimChars raw := by
        unfold postprocessResponse
        rw [hclean]
        simp [decorateContent, h]
      rw [hp]
      cases htc : trimChars raw with
      | nil =>
        have htrim : trimChars ((emojiMap theme).data ++ [' ']) = (emojiMap theme).data :=
          trim_append_space hne hnws
        have htag1e : listSub "<think>".data (emojiMap theme).data = false := by
          have h0 := @listSub_prepend_notin '<' "think>".data
            (emojiMap theme).data [] hpree
          rw [List.append_nil] at h0
          rw [hdecomp1, h0]
          rfl
        have htag2e : listSub "</think>".data (emojiMap theme).data = false := by
          have h0 := @listSub_prepend_notin '<' "/think>".data
            (emojiMap theme).data [] hpree
          rw [List.append_nil] at h0
          rw [hdecomp2, h0]
          rfl
        have hcleane : cleanResponse ((emojiMap theme).data ++ [' ']) =
            (emojiMap theme).data := by
          have hx := cleanResponse_no_tags ((emojiMap theme).data ++ [' '])
            (by rw [htrim]; exact htag1e) (by rw [htrim]; exact htag2e)
          rwa [htrim] at hx
        have hdec : hasDecoration (emojiMap theme).data = true := by
          apply hasDecoration_of_sub hmem
          have hself := listSub_self_append (emojiMap theme).data []
          rwa [List.append_nil] at hself
        unfold postprocessResponse
        rw [show (emojiMap theme).data ++ ' ' :: ([] : List Char) =
            (emojiMap theme).data ++ [' '] from rfl, hcleane, htrim]
        simp [decorateContent, hdec]
      | cons c t' =>
        rw [← htc]
        have hshape : (emojiMap theme).data ++ ' ' :: trimChars raw =
            ((emojiMap theme).data ++ [' ']) ++ trimChars raw := by simp
        have htag1o : listSub "<think>".data
            ((emojiMap theme).data ++ ' ' :: trimChars raw) = false := by
          rw [hshape, hdecomp1, listSub_prepend_notin _ _ hpre, ← hdecomp1]
          exact h1
        have htag2o : listSub "</think>".data
            ((emojiMap theme).data ++ ' ' :: trimChars raw) = false := by
          rw [hshape, hdecomp2, listSub_prepend_notin _ _ hpre, ← hdecomp2]
          exact h2
        have htrimo : trimChars ((emojiMap theme).data ++ ' ' :: trimChars raw) =
            (emojiMap theme).data ++ ' ' :: trimChars raw :=
          trim_append_space_trim hne hnws raw htc
        have hcleano : cleanResponse ((emojiMap theme).data ++ ' ' :: trimChars raw) =
            (emojiMap theme).data ++ ' ' :: trimChars raw := by
          have hx := cleanResponse_no_tags ((emojiMap theme).data ++ ' ' :: trimChars raw)
            (by rw [htrimo]; exact htag1o) (by rw [htrimo]; exact htag2o)
          rwa [htrimo] at hx
        have hdeco : hasDecoration ((emojiMap theme).data ++ ' ' :: trimChars raw) = true :=
          hasDecoration_of_sub hmem (listSub_self_append _ _)
        unfold postprocessResponse
        rw [hcleano, htrimo]
        simp [decorateContent, hdeco]

/-- C8, witness: concrete runs of the amended claim — an undecorated, tag-free
text gains exactly one emoji and space, a decorated tag-free text is only
trimmed, and re-application changes nothing further. -/
theorem c8_witness :
    listSub "<think>".data (trimChars " Vanquished the login demon! ".data) = false ∧
    listSub "</think>".data (trimChars " Vanquished the login demon! ".data) = false ∧
    postprocessResponse "medieval" " Vanquished the login demon! ".data =
      (emojiMap "medieval").data ++ ' ' :: trimChars " Vanquished the login demon! ".data ∧
    postprocessResponse "medieval" "  ⚔️ Vanquished the login demon!  ".data =
      trimChars "  ⚔️ Vanquished the login demon!  ".data ∧
    postprocessResponse "medieval"
        (postprocessResponse "medieval" " Vanquished the login demon! ".data) =
      trimChars (postprocessResponse "medieval" " Vanquished the login demon! ".data) := by
  refine ⟨by decide, by decide, ?_, ?_, ?_⟩
  · exact (c8_amended "medieval" " Vanquished the login demon! ".data
      (by decide) (by decide)).2.1 (by decide)
  · exact (c8_amended "medieval" "  ⚔️ Vanquished the login demon!  ".data
      (by decide) (by decide)).1 (by decide)
  · exact (c8_amended "medieval" " Vanquished the login demon! ".data
      (by decide) (by decide)).2.2
